import Mathlib

/-!
# Receipt processor: a shallow embedding of `receiptProcessor.js`, `index.js`, `config.js`

The program is a sequential JavaScript client.  Every `async` method is embedded as a
computation in the monad `Eff`: it receives the trace of events observed so far and
returns either a value or a thrown error, together with the extended trace.  The
filesystem and the HTTP backend are oracles (`World`) that may answer differently at
every point of the history, so a theorem quantified over `World` speaks about every
behaviour of the filesystem and of the backend.  Library functions (`path.extname`,
`path.basename`, `path.join`, `String.prototype.toLowerCase`, `JSON.parse`, and the
headers object the HTTP library hands to a `transformRequest` hook) are the fields of
`Platform`; `nodePosix` is a concrete instance used in the examples.

The constructor of the source installs a `transformRequest` and a `transformResponse` hook
on the JSON client.  The second returns the body as it is, in place of the library's
default that decodes JSON, so the `response.data` of that client is the text of the
body.  Both hooks are part of `Client` and are run by `httpRequest`.
-/

namespace Receipt

/-! ## JavaScript values -/

/-- A JavaScript value as it can reach the program from a decoded response body, plus
`undefined` (the result of reading an absent property).  A number is kept as the bit
pattern of its IEEE-754 double; the program only ever tests numbers for truthiness. -/
inductive JsVal where
  | undefined
  | null
  | bool (b : Bool)
  | num (bits : Nat)
  | str (s : String)
  | arr (items : List JsVal)
  | obj (fields : List (String × JsVal))

/-- A thrown `Error`: its `message`, and the `response` member (status, data) that the
HTTP library attaches when the server answered with an error status. -/
structure JsErr where
  message : String
  response : Option (JsVal × JsVal)

/-- The error made by `new Error(message)`. -/
def mkError (message : String) : JsErr := { message := message, response := none }

/-- Own-property lookup in an object, whose fields are listed with their keys (the first
binding of a key is the one that counts). -/
def lookupField (k : String) : List (String × JsVal) → Option JsVal
  | [] => none
  | (k', v) :: rest => if k' = k then some v else lookupField k rest

/-- The expression `v.k` / `v[k]` for the property names the program reads (`tables`, `table_id`,
`uri`, `rows`, `columns`, `Shop Name`, `Total`, `text`): a `TypeError` on `undefined` and
`null`, the own property of an object, and `undefined` on every other value (no
prototype defines one of these names).  The message follows the engine's wording, with
the property name unquoted; the program only logs it. -/
def getProp (v : JsVal) (k : String) : Except JsErr JsVal :=
  match v with
  | .undefined => .error (mkError ("Cannot read properties of undefined (reading " ++ k ++ ")"))
  | .null => .error (mkError ("Cannot read properties of null (reading " ++ k ++ ")"))
  | .obj fields => .ok ((lookupField k fields).getD .undefined)
  | _ => .ok .undefined

/-- The expression `v[0]`: first element of an array, first character of a string, own property
`0` of an object, `undefined` on numbers and booleans, a `TypeError` on `undefined`/`null`. -/
def getIndex0 (v : JsVal) : Except JsErr JsVal :=
  match v with
  | .undefined => .error (mkError "Cannot read properties of undefined (reading 0)")
  | .null => .error (mkError "Cannot read properties of null (reading 0)")
  | .arr items => .ok (items.head?.getD .undefined)
  | .str s => .ok (match s.data with
      | [] => .undefined
      | c :: _ => .str (String.singleton c))
  | .obj fields => .ok ((lookupField "0" fields).getD .undefined)
  | _ => .ok .undefined

/-- The expression `v?.k`: `undefined` when `v` is nullish, `v.k` otherwise. -/
def optChain (v : JsVal) (k : String) : JsVal :=
  match v with
  | .undefined => .undefined
  | .null => .undefined
  | .obj fields => (lookupField k fields).getD .undefined
  | _ => .undefined

/-- JavaScript truthiness (`ToBoolean`).  For a number: false on `+0`, `-0` and `NaN`. -/
def truthy : JsVal → Bool
  | .undefined => false
  | .null => false
  | .bool b => b
  | .num bits =>
      let magnitude := bits % 2 ^ 63
      !(magnitude == 0 || (magnitude / 2 ^ 52 == 2047 && magnitude % 2 ^ 52 != 0))
  | .str s => s != ""
  | .arr _ => true
  | .obj _ => true

/-- The expression `a || b` (with `b` free of effects). -/
def orElse (a b : JsVal) : JsVal := if truthy a then a else b

/-- The comparison `v === 'receipt'`-style: strict equality with a string literal. -/
def strictEqStr (v : JsVal) (s : String) : Bool :=
  match v with
  | .str s' => s' == s
  | _ => false

/-- The callback loop of `tables.some(table => table.table_id === 'receipt')` over the
elements of an array, left to right, stopping at the first hit; reading `table_id` of a
`null` element throws. -/
def someReceipt : List JsVal → Except JsErr Bool
  | [] => .ok false
  | table :: rest =>
      match getProp table "table_id" with
      | .error e => .error e
      | .ok id => if strictEqStr id "receipt" then .ok true else someReceipt rest

/-- The call `tables.some(...)`: a `TypeError` unless `tables` is an array (on nullish values
the property read throws, on other values `some` is not a function). -/
def callSome (tables : JsVal) : Except JsErr Bool :=
  match tables with
  | .arr items => someReceipt items
  | .undefined => .error (mkError "Cannot read properties of undefined (reading some)")
  | .null => .error (mkError "Cannot read properties of null (reading some)")
  | _ => .error (mkError "response.data.tables.some is not a function")

/-! ## Events, the environment, and the effect monad -/

/-- The three logger methods the program calls. -/
inductive Level where
  | info
  | debug
  | error

/-- One chunk of a logged template literal: literal text (or an interpolated string), an
interpolated JavaScript value, an interpolated array length or index, or the result of
`JSON.stringify` on a value. -/
inductive Piece where
  | lit (s : String)
  | val (v : JsVal)
  | nat (n : Nat)
  | json (v : JsVal)

/-- What an `axios.create` instance does with the data of a request or of a response: the
default of the library, or the hook that the constructor of the source installs. -/
inductive Transform where
  | libraryDefault
  | debugHook

/-- The configuration of one `axios.create` instance. -/
structure Client where
  baseURL : String
  authorization : String
  projectId : String
  contentType : String
  timeout : Nat
  transformRequest : Transform
  transformResponse : Transform

/-- The three requests the program sends. -/
inductive Request where
  | get (client : Client) (url : String) (params : List (String × String))
  | postJson (client : Client) (url : String) (body : JsVal)
  | postForm (client : Client) (url : String) (field : String) (filePath : String)
      (filename : String)

/-- What `fs.statSync(p)` reports through `isFile()` / `isDirectory()`. -/
inductive FileKind where
  | file
  | directory
  | other

/-- The client instance a request is sent through. -/
def Request.client : Request → Client
  | .get client _ _ => client
  | .postJson client _ _ => client
  | .postForm client _ _ _ _ => client

/-- The data of a request as a `transformRequest` hook receives it: `undefined` for a `get`,
the body for a JSON `post`.  (The form of an upload goes through a client without hook.) -/
def Request.payload : Request → JsVal
  | .get _ _ _ => .undefined
  | .postJson _ _ body => body
  | .postForm _ _ _ _ _ => .undefined

/-- An observable action of the program; `http` is a call of `get` or `post` on a client. -/
inductive Event where
  | log (level : Level) (msg : List Piece)
  | existsSync (path : String)
  | statSync (path : String)
  | readdirSync (path : String)
  | createReadStream (path : String)
  | http (req : Request)
  | exit (code : Nat)

/-- The history of a run, oldest event first. -/
abbrev Trace := List Event

/-- The filesystem and the backend: each call is answered as a function of the history so
far, by a value or by a thrown error.  (`fs.existsSync` never throws.)  The answer to a
request is the text of the body of a successful response, or the error the call rejects
with (no response, a timeout, an error status). -/
structure World where
  existsSync : Trace → String → Bool
  statSync : Trace → String → Except JsErr FileKind
  readdirSync : Trace → String → Except JsErr (List String)
  createReadStream : Trace → String → Except JsErr Unit
  http : Trace → Request → Except JsErr String

/-- The library functions the program relies on: the `path` functions, lower-casing,
`JSON.parse` (`none` on a syntax error), and the member `common` of the headers object
that the HTTP library passes to a `transformRequest` hook (an object in axios 0.x,
`undefined` in axios 1.x). -/
structure Platform where
  extname : String → String
  toLowerCase : String → String
  basename : String → String
  join : String → String → String
  jsonParse : String → Option JsVal
  headersCommon : JsVal

/-- An effectful computation: from the history so far to a result or a thrown error, and the
extended history. -/
def Eff (α : Type) : Type := Trace → Except JsErr α × Trace

namespace Eff

/-- Run a computation from a given history. -/
def run {α : Type} (m : Eff α) (t : Trace) : Except JsErr α × Trace := m t

/-- Return a value without any effect. -/
def ret {α : Type} (a : α) : Eff α := fun t => (.ok a, t)

/-- Sequencing: a thrown error skips the continuation. -/
def andThen {α β : Type} (m : Eff α) (f : α → Eff β) : Eff β := fun t =>
  match m t with
  | (.ok a, t') => f a t'
  | (.error e, t') => (.error e, t')

/-- The statement `throw e`. -/
def raise {α : Type} (e : JsErr) : Eff α := fun t => (.error e, t)

/-- The statement `try { body } catch (error) { handler }`. -/
def attempt {α : Type} (body : Eff α) (handler : JsErr → Eff α) : Eff α := fun t =>
  match body t with
  | (.ok a, t') => (.ok a, t')
  | (.error e, t') => handler e t'

end Eff

instance : Monad Eff where
  pure := Eff.ret
  bind := Eff.andThen

instance : MonadExcept JsErr Eff where
  throw := Eff.raise
  tryCatch := Eff.attempt

/-- Record one event. -/
def emit (e : Event) : Eff Unit := fun t => (.ok (), t ++ [e])

/-- Evaluate a pure expression that may throw. -/
def liftJs {α : Type} (x : Except JsErr α) : Eff α := fun t => (x, t)

/-- Modelled from the spec: the module `./logger` is not among the sources.  Its methods
`info`, `debug` and `error` print one line and return; here a call with a plain string
message is recorded in the history and never throws. -/
def logStr (level : Level) (s : String) : Eff Unit := emit (.log level [.lit s])

/-- Modelled from the spec: a call of a method of the absent module `./logger` whose template
literal interpolates values that are not strings; the chunks are recorded as they are. -/
def logMsg (level : Level) (msg : List Piece) : Eff Unit := emit (.log level msg)

/-- The call `fs.existsSync(p)`. -/
def fsExistsSync (W : World) (p : String) : Eff Bool := fun t =>
  (.ok (W.existsSync t p), t ++ [.existsSync p])

/-- The call `fs.statSync(p)`. -/
def fsStatSync (W : World) (p : String) : Eff FileKind := fun t =>
  (W.statSync t p, t ++ [.statSync p])

/-- The call `fs.readdirSync(p)`. -/
def fsReaddirSync (W : World) (p : String) : Eff (List String) := fun t =>
  (W.readdirSync t p, t ++ [.readdirSync p])

/-- The call `fs.createReadStream(p)`. -/
def fsCreateReadStream (W : World) (p : String) : Eff Unit := fun t =>
  (W.createReadStream t p, t ++ [.createReadStream p])

/-- The hook `transformRequest` that the constructor installs on the JSON client, run on the
data of a request; what it returns (`JSON.stringify(data)`) is the body that is sent.
Reading `headers.common.Authorization` throws when `headers.common` is `undefined`. -/
def transformRequestHook (P : Platform) (client : Client) (data : JsVal) : Eff Unit := do
  let authorization ← liftJs (getProp P.headersCommon "Authorization")
  if truthy authorization then
    let projectId ← liftJs (getProp P.headersCommon "Project-ID")
    logMsg .debug [.lit "Making request to:", .val projectId, .lit ("@" ++ client.baseURL)]
  else
    logMsg .debug [.lit "Making request to:", .lit client.baseURL]
  logMsg .debug [.lit "Request data:", .val data]

/-- The hook `transformResponse` that the constructor installs on the JSON client: it logs
the data and returns it unchanged. -/
def transformResponseHook (data : JsVal) : Eff JsVal := do
  logMsg .debug [.lit "Received response:", .val data]
  pure data

/-- The default `transformResponse` of the library on the text of a body: the decoded JSON
value, or the text itself when it is not JSON. -/
def defaultTransformResponse (P : Platform) (body : String) : JsVal :=
  match P.jsonParse body with
  | some v => v
  | none => .str body

/-- The `transformRequest` of the client of a request, run on the data of the request. -/
def runTransformRequest (P : Platform) (req : Request) : Eff Unit :=
  match req.client.transformRequest with
  | .debugHook => transformRequestHook P req.client req.payload
  | .libraryDefault => pure ()

/-- The `transformResponse` of a client, run on the body of the answer, or on the data of the
response that an error carries (the error is then thrown again).  Yields `response.data`. -/
def runTransformResponse (P : Platform) (client : Client) (answer : Except JsErr String) :
    Eff JsVal :=
  match answer with
  | .ok body =>
      match client.transformResponse with
      | .debugHook => transformResponseHook (.str body)
      | .libraryDefault => pure (defaultTransformResponse P body)
  | .error e =>
      match client.transformResponse, e.response with
      | .debugHook, some (_, data) => do
          let _ ← transformResponseHook data
          throw e
      | _, _ => throw e

/-- One exchange through a client, given the answer of the world: the call is recorded, the
client's `transformRequest` runs, then its `transformResponse`. -/
def exchange (P : Platform) (req : Request) (answer : Except JsErr String) : Eff JsVal := do
  emit (.http req)
  runTransformRequest P req
  runTransformResponse P req.client answer

/-- An awaited call of `get` or `post` on a client; yields `response.data`.  The world
answers as a function of the history at the call. -/
def httpRequest (P : Platform) (W : World) (req : Request) : Eff JsVal := fun t =>
  (exchange P req (W.http t req)).run t

/-! ## `config.js` and the constructor -/

/-- The module `config.js`: two values read from the process environment, one constant. -/
structure Config where
  PROJECT_ID : Option String
  PAT : Option String
  API_BASE_URL : String

/-- The exported object of `config.js`, given `process.env`. -/
def config (env : String → Option String) : Config :=
  { PROJECT_ID := env "PROJECT_ID"
    PAT := env "PAT"
    API_BASE_URL := "https://api.jamaibase.com/v1" }

/-- The test `!v` on an environment value: true when it is unset or the empty string. -/
def envFalsy : Option String → Bool
  | none => true
  | some s => s == ""

/-- The value interpolated by a template literal for an environment value. -/
def envText : Option String → String
  | none => "undefined"
  | some s => s

/-- An instance of the class: its two preconfigured request senders. -/
structure ReceiptProcessor where
  client : Client
  fileClient : Client

/-- The constructor of `ReceiptProcessor`, given the values imported from `config.js`: the
JSON client is created with the two debugging hooks, the upload client with the defaults
of the library. -/
def ReceiptProcessor.constructor (cfg : Config) : Except JsErr ReceiptProcessor :=
  if envFalsy cfg.PROJECT_ID || envFalsy cfg.PAT then
    .error (mkError "Missing required environment variables: PROJECT_ID and PAT must be set")
  else
    .ok
      { client :=
          { baseURL := cfg.API_BASE_URL
            authorization := "Bearer " ++ envText cfg.PAT
            projectId := envText cfg.PROJECT_ID
            contentType := "application/json"
            timeout := 30000
            transformRequest := .debugHook
            transformResponse := .debugHook }
        fileClient :=
          { baseURL := cfg.API_BASE_URL
            authorization := "Bearer " ++ envText cfg.PAT
            projectId := envText cfg.PROJECT_ID
            contentType := "multipart/form-data"
            timeout := 30000
            transformRequest := .libraryDefault
            transformResponse := .libraryDefault } }

/-! ## `receiptProcessor.js` -/

/-- The literal `['.jpg', '.jpeg', '.png', '.webp', '.gif']`. -/
def validExtensions : List String := [".jpg", ".jpeg", ".png", ".webp", ".gif"]

/-- The double quote character, as it occurs in a message. -/
def dq : String := String.singleton (Char.ofNat 34)

/-- The method `validateEnvironment()`. -/
def validateEnvironment (P : Platform) (W : World) (self : ReceiptProcessor) : Eff Bool :=
  try
    logStr .info "Validating environment..."
    let data ← httpRequest P W (.get self.client "/v1/tables" [("table_type", "action")])
    let tables ← liftJs (getProp data "tables")
    let tableExists ← liftJs (callSome tables)
    if !tableExists then
      throw (mkError ("Action table " ++ dq ++ "receipt" ++ dq ++
        " does not exist in your project"))
    logStr .info "Environment validation successful"
    pure true
  catch error =>
    logStr .error ("Environment validation failed: " ++ error.message)
    throw error

/-- The method `validateImage(imagePath)`. -/
def validateImage (P : Platform) (W : World) (imagePath : String) : Eff Bool :=
  try
    let found ← fsExistsSync W imagePath
    if !found then
      throw (mkError ("Image not found: " ++ imagePath))
    let fileExt := P.toLowerCase (P.extname imagePath)
    if !validExtensions.contains fileExt then
      throw (mkError ("Unsupported file format. Use: " ++
        String.intercalate ", " validExtensions))
    logStr .debug ("Image validation passed for: " ++ imagePath)
    pure true
  catch error =>
    logStr .error ("Image validation failed: " ++ error.message)
    throw error

/-- The method `uploadFile(filePath)`; returns `response.data`. -/
def uploadFile (P : Platform) (W : World) (self : ReceiptProcessor) (filePath : String) :
    Eff JsVal :=
  try
    fsCreateReadStream W filePath
    let filename := P.basename filePath
    logStr .debug ("Starting file upload: " ++ filePath)
    let data ← httpRequest P W (.postForm self.fileClient "/v1/files" "file" filePath filename)
    let uri ← liftJs (getProp data "uri")
    logMsg .debug [.lit "File uploaded successfully: ", .val uri]
    pure data
  catch error =>
    logStr .error ("File upload failed: " ++ error.message)
    match error.response with
    | some (status, body) =>
        logMsg .error [.lit "Response status: ", .val status]
        logMsg .error [.lit "Response data: ", .json body]
    | none => pure ()
    throw error

/-- The record returned by `processReceipt`: exactly the keys `shop_name` and `total`. -/
structure ExtractionResult where
  shop_name : JsVal
  total : JsVal

/-- The body of the row-creation request. -/
def rowsBody (uri : JsVal) : JsVal :=
  .obj [("table_type", .str "action"),
    ("request", .obj [("table_id", .str "receipt"),
      ("data", .arr [.obj [("Image", uri)]]),
      ("stream", .bool false)])]

/-- The statements `const row = response.data.rows[0]; const results = { ... }` of
`processReceipt`, on `response.data`: the property reads in evaluation order, each of
which throws a `TypeError` on `undefined` or `null`. -/
def readResult (data : JsVal) : Except JsErr ExtractionResult :=
  match getProp data "rows" with
  | .error e => .error e
  | .ok rows =>
  match getIndex0 rows with
  | .error e => .error e
  | .ok row =>
  match getProp row "columns" with
  | .error e => .error e
  | .ok columns =>
  match getProp columns "Shop Name" with
  | .error e => .error e
  | .ok shopColumn =>
  match getProp row "columns" with
  | .error e => .error e
  | .ok columns' =>
  match getProp columns' "Total" with
  | .error e => .error e
  | .ok totalColumn =>
    .ok { shop_name := orElse (optChain shopColumn "text") (.str "N/A")
          total := orElse (optChain totalColumn "text") (.str "N/A") }

/-- The `try` block of `processReceipt(imagePath)`. -/
def processReceiptTry (P : Platform) (W : World) (self : ReceiptProcessor)
    (imagePath : String) : Eff ExtractionResult := do
  let _ ← validateEnvironment P W self
  let _ ← validateImage P W imagePath
  logStr .info ("Processing receipt: " ++ P.basename imagePath)
  let fileResponse ← uploadFile P W self imagePath
  logStr .debug "Extracting receipt information..."
  let uri ← liftJs (getProp fileResponse "uri")
  let data ← httpRequest P W (.postJson self.client "/v1/tables/rows" (rowsBody uri))
  let results ← liftJs (readResult data)
  logStr .info ("Processing complete for: " ++ P.basename imagePath)
  pure results

/-- The method `processReceipt(imagePath)`; `none` is the returned `null`. -/
def processReceipt (P : Platform) (W : World) (self : ReceiptProcessor)
    (imagePath : String) : Eff (Option ExtractionResult) :=
  try
    let results ← processReceiptTry P W self imagePath
    pure (some results)
  catch error =>
    logStr .error ("Error processing receipt " ++ P.basename imagePath ++ ": " ++ error.message)
    pure none

/-- An element of the array returned by `processReceiptBatch`. -/
structure BatchEntry where
  filename : String
  shop_name : JsVal
  total : JsVal

/-- The loop `for (const file of files)` of `processReceiptBatch`, with the array `results`
built so far. -/
def batchLoop (P : Platform) (W : World) (self : ReceiptProcessor) (folderPath : String) :
    List String → List BatchEntry → Eff (List BatchEntry)
  | [], results => pure results
  | file :: rest, results => do
      let filePath := P.join folderPath file
      if validExtensions.contains (P.toLowerCase (P.extname file)) then
        let result ← processReceipt P W self filePath
        match result with
        | some r =>
            batchLoop P W self folderPath rest
              (results ++ [{ filename := file, shop_name := r.shop_name, total := r.total }])
        | none => batchLoop P W self folderPath rest results
      else
        batchLoop P W self folderPath rest results

/-- The method `processReceiptBatch(folderPath)`. -/
def processReceiptBatch (P : Platform) (W : World) (self : ReceiptProcessor)
    (folderPath : String) : Eff (List BatchEntry) :=
  try
    let _ ← validateEnvironment P W self
    logStr .info ("Starting batch processing for folder: " ++ folderPath)
    let files ← fsReaddirSync W folderPath
    let results ← batchLoop P W self folderPath files []
    logMsg .info [.lit "Batch processing completed. ", .nat results.length,
      .lit " receipts processed"]
    pure results
  catch error =>
    logStr .error ("Batch processing failed: " ++ error.message)
    pure []

/-! ## `index.js` -/

/-- How `main()` ends: it returns (the process then ends with the implicit status 0), or it
calls `process.exit(code)`. -/
inductive Outcome where
  | returned
  | exited (code : Nat)

/-- The callback loop of `results.forEach((result, index) => ...)`, from index `index`. -/
def printResults : List BatchEntry → Nat → Eff Unit
  | [], _ => pure ()
  | result :: rest, index => do
      logMsg .info [.lit "Result ", .nat (index + 1), .lit ":"]
      logStr .info ("File: " ++ result.filename)
      logMsg .info [.lit "Shop Name: ", .val result.shop_name]
      logMsg .info [.lit "Total: ", .val result.total]
      logStr .info "----------------------------------------"
      printResults rest (index + 1)

/-- The `try` block of `main()` after the test of the argument: from `new ReceiptProcessor()`
on. -/
def mainTry (P : Platform) (W : World) (cfg : Config) (inputPath : String) : Eff Unit := do
  let processor ← liftJs (ReceiptProcessor.constructor cfg)
  let stats ← fsStatSync W inputPath
  match stats with
  | .file =>
      let result ← processReceipt P W processor inputPath
      match result with
      | some r =>
          logStr .info "\nRECEIPT PROCESSING RESULT:"
          logStr .info "----------------------------------------"
          logMsg .info [.lit "Shop Name: ", .val r.shop_name]
          logMsg .info [.lit "Total: ", .val r.total]
          logStr .info "----------------------------------------"
      | none => logStr .error "Failed to process receipt"
  | .directory =>
      let results ← processReceiptBatch P W processor inputPath
      logStr .info "\nBATCH PROCESSING SUMMARY:"
      logStr .info "========================================"
      printResults results 0
      let entries ← fsReaddirSync W inputPath
      logMsg .info [.lit "Successfully processed ", .nat results.length, .lit " of ",
        .nat entries.length, .lit " files"]
      logStr .info "========================================"
  | .other => logStr .error "Input path is neither a file nor a directory"

/-- The function `main()`, given `process.argv[2]` (`none` when no argument was passed).
`process.exit` ends the run at once, so nothing follows an `exit` event. -/
def main (P : Platform) (W : World) (cfg : Config) (argv2 : Option String) (t : Trace) :
    Outcome × Trace :=
  if envFalsy argv2 then
    (.exited 1,
      t ++ [.log .error [.lit "Usage: node index.js <path-to-receipt-image-or-folder>"],
        .exit 1])
  else
    match (mainTry P W cfg (envText argv2)).run t with
    | (.ok _, t') => (.returned, t')
    | (.error error, t') =>
        (.exited 1,
          t' ++ [.log .error [.lit ("Application error: " ++ error.message)], .exit 1])

/-! ## A concrete platform: the POSIX `path` module -/

/-- Scanner state of `path.extname`. -/
structure ExtScan where
  startDot : Int
  startPart : Int
  stop : Int
  matchedSlash : Bool
  preDotState : Int

/-- The backwards loop of `path.extname` over the characters paired with their indices, last
character first. -/
def extnameScan : List (Nat × Char) → ExtScan → ExtScan
  | [], st => st
  | (i, c) :: rest, st =>
      if c = '/' then
        if !st.matchedSlash then { st with startPart := i + 1 }
        else extnameScan rest st
      else
        let st1 := if st.stop = -1 then { st with matchedSlash := false, stop := i + 1 } else st
        let st2 :=
          if c = '.' then
            if st1.startDot = -1 then { st1 with startDot := i }
            else if st1.preDotState ≠ 1 then { st1 with preDotState := 1 }
            else st1
          else if st1.startDot ≠ -1 then { st1 with preDotState := -1 }
          else st1
        extnameScan rest st2

/-- Characters paired with their indices, last character first. -/
def indexedRev (cs : List Char) : List (Nat × Char) :=
  ((List.range cs.length).zip cs).reverse

/-- The function `path.posix.extname`. -/
def posixExtname (path : String) : String :=
  let st := extnameScan (indexedRev path.data)
    { startDot := -1, startPart := 0, stop := -1, matchedSlash := true, preDotState := 0 }
  if st.startDot = -1 ∨ st.stop = -1 ∨ st.preDotState = 0 ∨
      (st.preDotState = 1 ∧ st.startDot = st.stop - 1 ∧ st.startDot = st.startPart + 1) then
    ""
  else
    String.mk ((path.data.take st.stop.toNat).drop st.startDot.toNat)

/-- The backwards loop of `path.posix.basename` (one argument): the pair `start`, `end`. -/
def basenameScan : List (Nat × Char) → Bool → Int → Int × Int
  | [], _, stop => (0, stop)
  | (i, c) :: rest, matchedSlash, stop =>
      if c = '/' then
        if !matchedSlash then (i + 1, stop)
        else basenameScan rest matchedSlash stop
      else if stop = -1 then basenameScan rest false (i + 1)
      else basenameScan rest matchedSlash stop

/-- The function `path.posix.basename` with one argument. -/
def posixBasename (path : String) : String :=
  let (start, stop) := basenameScan (indexedRev path.data) true (-1)
  if stop = -1 then "" else String.mk ((path.data.take stop.toNat).drop start.toNat)

/-- Split a path at every `/`. -/
def splitSlash : List Char → List (List Char)
  | [] => [[]]
  | c :: cs =>
      match splitSlash cs with
      | [] => [[]]
      | seg :: segs => if c = '/' then [] :: seg :: segs else (c :: seg) :: segs

/-- The segment loop of `normalizeString`: the kept segments, last one first. -/
def normalizeSegments (allowAboveRoot : Bool) :
    List (List Char) → List (List Char) → List (List Char)
  | [], kept => kept
  | seg :: rest, kept =>
      if seg = [] ∨ seg = ['.'] then normalizeSegments allowAboveRoot rest kept
      else if seg = ['.', '.'] then
        match kept with
        | last :: kept' =>
            if last ≠ ['.', '.'] then normalizeSegments allowAboveRoot rest kept'
            else if allowAboveRoot then normalizeSegments allowAboveRoot rest (seg :: kept)
            else normalizeSegments allowAboveRoot rest kept
        | [] =>
            if allowAboveRoot then normalizeSegments allowAboveRoot rest (seg :: kept)
            else normalizeSegments allowAboveRoot rest kept
      else normalizeSegments allowAboveRoot rest (seg :: kept)

/-- The function `path.posix.normalize`. -/
def posixNormalize (path : String) : String :=
  if path = "" then "."
  else
    let isAbsolute := path.data.head? = some '/'
    let trailingSeparator := path.data.getLast? = some '/'
    let segs := (normalizeSegments (!isAbsolute) (splitSlash path.data) []).reverse
    let body := String.intercalate "/" (segs.map String.mk)
    if body = "" then
      if isAbsolute then "/" else if trailingSeparator then "./" else "."
    else
      let body' := if trailingSeparator then body ++ "/" else body
      if isAbsolute then "/" ++ body' else body'

/-- The function `path.posix.join` with two arguments. -/
def posixJoin (a b : String) : String :=
  if a = "" ∧ b = "" then "."
  else if a = "" then posixNormalize b
  else if b = "" then posixNormalize a
  else posixNormalize (a ++ "/" ++ b)

/-- Lower-casing of the letters `A`..`Z`; agrees with `String.prototype.toLowerCase` on
strings of ASCII characters. -/
def asciiToLowerCase (s : String) : String :=
  String.mk (s.data.map fun c => if 'A' ≤ c ∧ c ≤ 'Z' then Char.ofNat (c.toNat + 32) else c)

/-- A key or a string of a JSON text, between double quotes. -/
def quoted (s : String) : String := dq ++ s ++ dq

/-- The body of a table listing with one table, of the given `table_id`. -/
def tablesBody (tableId : String) : String :=
  "\x7b" ++ quoted "tables" ++ ":[\x7b" ++ quoted "table_id" ++ ":" ++ quoted tableId ++
    "\x7d]\x7d"

/-- The body the example backend answers to an upload. -/
def uploadBody : String :=
  "\x7b" ++ quoted "uri" ++ ":" ++ quoted "file://uploads/receipt" ++ "\x7d"

/-- The body the example backend answers to a row creation: shop `Acme`, total `12.50`. -/
def acmeRowsBody : String :=
  "\x7b" ++ quoted "rows" ++ ":[\x7b" ++ quoted "columns" ++ ":\x7b" ++
    quoted "Shop Name" ++ ":\x7b" ++ quoted "text" ++ ":" ++ quoted "Acme" ++ "\x7d," ++
    quoted "Total" ++ ":\x7b" ++ quoted "text" ++ ":" ++ quoted "12.50" ++
    "\x7d\x7d\x7d]\x7d"

/-- The value of `acmeRowsBody`. -/
def acmeRows : JsVal :=
  .obj [("rows", .arr [.obj [("columns",
    .obj [("Shop Name", .obj [("text", .str "Acme")]),
      ("Total", .obj [("text", .str "12.50")])])]])]

/-- The function `JSON.parse` on the bodies the example backend sends; every other text is
taken as not being JSON. -/
def exampleJsonParse (body : String) : Option JsVal :=
  if body = tablesBody "receipt" then
    some (.obj [("tables", .arr [.obj [("table_id", .str "receipt")]])])
  else if body = tablesBody "invoice" then
    some (.obj [("tables", .arr [.obj [("table_id", .str "invoice")]])])
  else if body = uploadBody then some (.obj [("uri", .str "file://uploads/receipt")])
  else if body = acmeRowsBody then some acmeRows
  else none

/-- The platform of the examples: Node's POSIX `path` functions, and the headers of axios 0.x,
whose member `common` holds the `Accept` header only. -/
def nodePosix : Platform :=
  { extname := posixExtname
    toLowerCase := asciiToLowerCase
    basename := posixBasename
    join := posixJoin
    jsonParse := exampleJsonParse
    headersCommon := .obj [("Accept", .str "application/json, text/plain, */*")] }

/-! ## Vocabulary of the specification -/

/-- The table-listing request sent by `validateEnvironment`. -/
def tablesRequest (self : ReceiptProcessor) : Request :=
  .get self.client "/v1/tables" [("table_type", "action")]

/-- The row-creation request sent by `processReceipt`. -/
def rowsRequest (self : ReceiptProcessor) (uri : JsVal) : Request :=
  .postJson self.client "/v1/tables/rows" (rowsBody uri)

/-- What `validateEnvironment` computes from the answer to the table-listing request: the
value of `tableExists`, or the error thrown on the way. -/
def tablesVerdict (answer : Except JsErr JsVal) : Except JsErr Bool :=
  match answer with
  | .error e => .error e
  | .ok data =>
      match getProp data "tables" with
      | .error e => .error e
      | .ok tables => callSome tables

/-- A table object whose `table_id` is exactly the string `receipt`. -/
def isReceiptTable : JsVal → Bool
  | .obj fields =>
      match lookupField "table_id" fields with
      | some (.str s) => s == "receipt"
      | _ => false
  | _ => false

/-- The table-listing response contains a table whose `table_id` is exactly `receipt`. -/
def hasReceiptTable : JsVal → Bool
  | .obj fields =>
      match lookupField "tables" fields with
      | some (.arr items) => items.any isReceiptTable
      | _ => false
  | _ => false

/-- The requests of a history, in order. -/
def requests : Trace → List Request
  | [] => []
  | .http req :: rest => req :: requests rest
  | _ :: rest => requests rest

/-- A request is a table listing. -/
def isTablesRequest : Request → Bool
  | .get _ url _ => url == "/v1/tables"
  | _ => false

/-- Number of table-listing requests in a history. -/
def tableListings : Trace → Nat
  | [] => 0
  | .http req :: rest => (if isTablesRequest req then 1 else 0) + tableListings rest
  | _ :: rest => tableListings rest

/-- Number of directory listings in a history. -/
def dirListings : Trace → Nat
  | [] => 0
  | .readdirSync _ :: rest => dirListings rest + 1
  | _ :: rest => dirListings rest

/-- An event that inspects the filesystem or uses the network. -/
def touchesOutside : Event → Bool
  | .log _ _ => false
  | .exit _ => false
  | _ => true

/-- The entry has a supported image extension (the test of the batch loop). -/
def isSupported (P : Platform) (file : String) : Bool :=
  validExtensions.contains (P.toLowerCase (P.extname file))

/-- The expression `response.data.rows[0].columns`. -/
def firstRowColumns (data : JsVal) : Except JsErr JsVal :=
  match getProp data "rows" with
  | .error e => .error e
  | .ok rows =>
      match getIndex0 rows with
      | .error e => .error e
      | .ok row => getProp row "columns"

/-- The field of an Extraction Result as the specification words it: the text of the column
when the column is present and its text is non-empty (truthy), the sentinel `N/A`
otherwise. -/
def columnText (columns : List (String × JsVal)) (name : String) : JsVal :=
  match lookupField name columns with
  | some (.obj column) =>
      match lookupField "text" column with
      | some text => if truthy text then text else .str "N/A"
      | none => .str "N/A"
  | _ => .str "N/A"

/-- The batch result as the specification words it: walk the listing in order, keep each
entry with a supported extension for which `processReceipt` yields a record, and attach
the file name.  The history is threaded through the calls. -/
def batchSpec (P : Platform) (W : World) (self : ReceiptProcessor) (folderPath : String) :
    List String → Trace → List BatchEntry
  | [], _ => []
  | file :: rest, t =>
      if isSupported P file then
        match (processReceipt P W self (P.join folderPath file)).run t with
        | (.ok (some r), t') =>
            { filename := file, shop_name := r.shop_name, total := r.total } ::
              batchSpec P W self folderPath rest t'
        | (_, t') => batchSpec P W self folderPath rest t'
      else batchSpec P W self folderPath rest t

/-- The images that individually succeeded: the entries of the listing, in order, that have
a supported extension and for which `processReceipt` yields a record. -/
def succeededFiles (P : Platform) (W : World) (self : ReceiptProcessor) (folderPath : String) :
    List String → Trace → List String
  | [], _ => []
  | file :: rest, t =>
      if isSupported P file then
        match (processReceipt P W self (P.join folderPath file)).run t with
        | (.ok (some _), t') => file :: succeededFiles P W self folderPath rest t'
        | (_, t') => succeededFiles P W self folderPath rest t'
      else succeededFiles P W self folderPath rest t

/-- The summary blocks printed for a batch result, numbered from `index + 1`. -/
def summaryBlocks : List BatchEntry → Nat → List Event
  | [], _ => []
  | result :: rest, index =>
      [ .log .info [.lit "Result ", .nat (index + 1), .lit ":"],
        .log .info [.lit ("File: " ++ result.filename)],
        .log .info [.lit "Shop Name: ", .val result.shop_name],
        .log .info [.lit "Total: ", .val result.total],
        .log .info [.lit "----------------------------------------"] ] ++
        summaryBlocks rest (index + 1)

/-- The count line of the batch summary. -/
def countLine (n m : Nat) : Event :=
  .log .info [.lit "Successfully processed ", .nat n, .lit " of ", .nat m, .lit " files"]

/-! ## Example environments -/

/-- A process environment with both credentials set. -/
def demoConfig : Config :=
  config fun name =>
    if name = "PROJECT_ID" then some "proj_demo"
    else if name = "PAT" then some "pat_demo"
    else none

/-- The processor constructed from `demoConfig`. -/
def demoProcessor : ReceiptProcessor :=
  { client :=
      { baseURL := "https://api.jamaibase.com/v1"
        authorization := "Bearer pat_demo"
        projectId := "proj_demo"
        contentType := "application/json"
        timeout := 30000
        transformRequest := .debugHook
        transformResponse := .debugHook }
    fileClient :=
      { baseURL := "https://api.jamaibase.com/v1"
        authorization := "Bearer pat_demo"
        projectId := "proj_demo"
        contentType := "multipart/form-data"
        timeout := 30000
        transformRequest := .libraryDefault
        transformResponse := .libraryDefault } }

/-- The backend of the examples: it answers every request with status 200 and the text of a
JSON body.  The table listing names one table, of the given `table_id`; every upload
succeeds except the one of `c.png`, which times out; every extraction finds `Acme`,
`12.50`. -/
def demoHttp (tableId : String) (req : Request) : Except JsErr String :=
  match req with
  | .get _ _ _ => .ok (tablesBody tableId)
  | .postForm _ _ _ _ filename =>
      if filename = "c.png" then
        .error { message := "timeout of 30000ms exceeded", response := none }
      else .ok uploadBody
  | .postJson _ _ _ => .ok acmeRowsBody

/-- The filesystem of the examples: `receipts` is a directory holding `a.jpg`, `b.txt` and `c.png`;
every other path is an existing regular file. -/
def demoWorld (tableId : String) : World :=
  { existsSync := fun _ _ => true
    statSync := fun _ p => if p = "receipts" then .ok .directory else .ok .file
    readdirSync := fun _ _ => .ok ["a.jpg", "b.txt", "c.png"]
    createReadStream := fun _ _ => .ok ()
    http := fun _ req => demoHttp tableId req }

/-- The example world whose project has the `receipt` action table. -/
def shopWorld : World := demoWorld "receipt"

/-- The example world whose project lacks the `receipt` action table. -/
def noTableWorld : World := demoWorld "invoice"

/-- The processor of `demoConfig` as it would be without the two debugging hooks: both
clients use the defaults of the library. -/
def plainProcessor : ReceiptProcessor :=
  { client := { demoProcessor.client with
      transformRequest := .libraryDefault, transformResponse := .libraryDefault }
    fileClient := demoProcessor.fileClient }

/-- A world like `shopWorld` whose directory `receipts` cannot be listed. -/
def unreadableWorld : World :=
  { shopWorld with
    readdirSync := fun _ _ =>
      .error { message := "EACCES: permission denied, scandir receipts", response := none } }

/-- A computation that adds nothing but log lines to the history: no request, no directory
listing, and the history it starts from is kept. -/
def LogsOnly {α : Type} (m : Eff α) : Prop :=
  ∀ t : Trace,
    requests (m.run t).2 = requests t ∧
    tableListings (m.run t).2 = tableListings t ∧
    dirListings (m.run t).2 = dirListings t ∧
    t <+: (m.run t).2

/-- Every stage of `processReceipt` succeeds from history `t` and the response is read into
`res`: environment validation, image validation, upload, row creation, reading. -/
def StagesSucceed (P : Platform) (W : World) (self : ReceiptProcessor) (imagePath : String)
    (t : Trace) (res : ExtractionResult) : Prop :=
  ∃ t1 t2 t3 t4 fileResponse uri data,
    (validateEnvironment P W self).run t = (.ok true, t1) ∧
    (validateImage P W imagePath).run t1 = (.ok true, t2) ∧
    (uploadFile P W self imagePath).run
        (t2 ++ [.log .info [.lit ("Processing receipt: " ++ P.basename imagePath)]]) =
      (.ok fileResponse, t3) ∧
    getProp fileResponse "uri" = .ok uri ∧
    (httpRequest P W (rowsRequest self uri)).run
        (t3 ++ [.log .debug [.lit "Extracting receipt information..."]]) = (.ok data, t4) ∧
    readResult data = .ok res

/-! ## Running the effect monad -/

section RunLemmas
variable {α β : Type}

@[simp] theorem run_pure (a : α) (t : Trace) : (pure a : Eff α).run t = (.ok a, t) := rfl

@[simp] theorem run_bind (m : Eff α) (f : α → Eff β) (t : Trace) :
    (m >>= f).run t =
      match m.run t with
      | (.ok a, t') => (f a).run t'
      | (.error e, t') => (.error e, t') := rfl

@[simp] theorem run_throw (e : JsErr) (t : Trace) :
    (throw e : Eff α).run t = (.error e, t) := rfl

@[simp] theorem run_tryCatch (body : Eff α) (handler : JsErr → Eff α) (t : Trace) :
    (tryCatch body handler).run t =
      match body.run t with
      | (.ok a, t') => (.ok a, t')
      | (.error e, t') => (handler e).run t' := rfl

@[simp] theorem run_emit (e : Event) (t : Trace) : (emit e).run t = (.ok (), t ++ [e]) := rfl

@[simp] theorem run_liftJs (x : Except JsErr α) (t : Trace) : (liftJs x).run t = (x, t) := rfl

@[simp] theorem run_ite (c : Prop) [Decidable c] (a b : Eff α) (t : Trace) :
    (if c then a else b).run t = if c then a.run t else b.run t := by
  split <;> rfl

@[simp] theorem run_fsExistsSync (W : World) (p : String) (t : Trace) :
    (fsExistsSync W p).run t = (.ok (W.existsSync t p), t ++ [.existsSync p]) := rfl

@[simp] theorem run_fsStatSync (W : World) (p : String) (t : Trace) :
    (fsStatSync W p).run t = (W.statSync t p, t ++ [.statSync p]) := rfl

@[simp] theorem run_fsReaddirSync (W : World) (p : String) (t : Trace) :
    (fsReaddirSync W p).run t = (W.readdirSync t p, t ++ [.readdirSync p]) := rfl

@[simp] theorem run_fsCreateReadStream (W : World) (p : String) (t : Trace) :
    (fsCreateReadStream W p).run t = (W.createReadStream t p, t ++ [.createReadStream p]) :=
  rfl

@[simp] theorem run_logStr (level : Level) (s : String) (t : Trace) :
    (logStr level s).run t = (.ok (), t ++ [.log level [.lit s]]) := rfl

@[simp] theorem run_logMsg (level : Level) (msg : List Piece) (t : Trace) :
    (logMsg level msg).run t = (.ok (), t ++ [.log level msg]) := rfl

end RunLemmas

/-! ## Requests of a history -/

theorem requests_append (t u : Trace) : requests (t ++ u) = requests t ++ requests u := by
  induction t with
  | nil => rfl
  | cons e rest ih => cases e <;> simp [requests, ih]

theorem tableListings_append (t u : Trace) :
    tableListings (t ++ u) = tableListings t + tableListings u := by
  induction t with
  | nil => simp [tableListings]
  | cons e rest ih =>
    cases e <;> simp [tableListings, ih]
    omega

theorem dirListings_append (t u : Trace) :
    dirListings (t ++ u) = dirListings t + dirListings u := by
  induction t with
  | nil => simp [dirListings]
  | cons e rest ih =>
    cases e <;> simp [dirListings, ih]
    omega


/-! ## Requests through a client -/

theorem prefix_append_of {t u : Trace} (h : t <+: u) (v : Trace) : t <+: u ++ v :=
  h.trans (List.prefix_append u v)


theorem run_httpRequest (P : Platform) (W : World) (req : Request) (t : Trace) :
    (httpRequest P W req).run t = (exchange P req (W.http t req)).run t := rfl

section LogsOnlyLemmas
variable {α β : Type}

theorem logsOnly_pure (a : α) : LogsOnly (pure a : Eff α) := by
  intro t
  simp

theorem logsOnly_throw (e : JsErr) : LogsOnly (throw e : Eff α) := by
  intro t
  simp

theorem logsOnly_liftJs (x : Except JsErr α) : LogsOnly (liftJs x) := by
  intro t
  simp

theorem logsOnly_logMsg (level : Level) (msg : List Piece) : LogsOnly (logMsg level msg) := by
  intro t
  simp [requests_append, requests, tableListings_append, tableListings, dirListings_append,
    dirListings]

theorem logsOnly_bind {m : Eff α} {f : α → Eff β} (hm : LogsOnly m)
    (hf : ∀ a, LogsOnly (f a)) : LogsOnly (m >>= f) := by
  intro t
  have h1 := hm t
  simp only [run_bind]
  rcases hrun : m.run t with ⟨r, t1⟩
  rw [hrun] at h1
  simp only at h1
  cases r with
  | error e => exact h1
  | ok a =>
    have h2 := hf a t1
    exact ⟨h2.1.trans h1.1, h2.2.1.trans h1.2.1, h2.2.2.1.trans h1.2.2.1,
      h1.2.2.2.trans h2.2.2.2⟩

end LogsOnlyLemmas

theorem logsOnly_transformRequestHook (P : Platform) (client : Client) (data : JsVal) :
    LogsOnly (transformRequestHook P client data) := by
  unfold transformRequestHook
  refine logsOnly_bind (logsOnly_liftJs _) fun authorization => ?_
  split
  · exact logsOnly_bind (logsOnly_liftJs _) fun _ =>
      logsOnly_bind (logsOnly_logMsg _ _) fun _ => logsOnly_logMsg _ _
  · exact logsOnly_bind (logsOnly_logMsg _ _) fun _ => logsOnly_logMsg _ _

theorem logsOnly_runTransformRequest (P : Platform) (req : Request) :
    LogsOnly (runTransformRequest P req) := by
  unfold runTransformRequest
  split
  · exact logsOnly_transformRequestHook _ _ _
  · exact logsOnly_pure _

theorem logsOnly_transformResponseHook (data : JsVal) :
    LogsOnly (transformResponseHook data) :=
  logsOnly_bind (logsOnly_logMsg _ _) fun _ => logsOnly_pure _

theorem logsOnly_runTransformResponse (P : Platform) (client : Client)
    (answer : Except JsErr String) : LogsOnly (runTransformResponse P client answer) := by
  unfold runTransformResponse
  split
  · split
    · exact logsOnly_transformResponseHook _
    · exact logsOnly_pure _
  · split
    · exact logsOnly_bind (logsOnly_transformResponseHook _) fun _ => logsOnly_throw _
    · exact logsOnly_throw _

/-- What one exchange adds to the history: the call itself, then log lines only. -/
theorem exchange_history (P : Platform) (req : Request) (answer : Except JsErr String)
    (t : Trace) :
    requests ((exchange P req answer).run t).2 = requests t ++ [req] ∧
    tableListings ((exchange P req answer).run t).2 =
      tableListings t + (if isTablesRequest req then 1 else 0) ∧
    dirListings ((exchange P req answer).run t).2 = dirListings t ∧
    (t ++ [.http req]) <+: ((exchange P req answer).run t).2 := by
  have hrest : LogsOnly (runTransformRequest P req >>= fun _ =>
      runTransformResponse P req.client answer) :=
    logsOnly_bind (logsOnly_runTransformRequest P req) fun _ =>
      logsOnly_runTransformResponse P req.client answer
  have h := hrest (t ++ [.http req])
  have hrun : (exchange P req answer).run t =
      (runTransformRequest P req >>= fun _ =>
        runTransformResponse P req.client answer).run (t ++ [.http req]) := rfl
  rw [hrun]
  refine ⟨?_, ?_, ?_, h.2.2.2⟩
  · rw [h.1]
    simp [requests_append, requests]
  · rw [h.2.1]
    simp [tableListings_append, tableListings]
  · rw [h.2.2.1]
    simp [dirListings_append, dirListings]

/-- The data one exchange delivers: the text of the body under the `transformResponse` hook
of the source, the decoded body under the default of the library. -/
theorem exchange_ok (P : Platform) (req : Request) (answer : Except JsErr String)
    (t : Trace) (data : JsVal) (h : ((exchange P req answer).run t).1 = .ok data) :
    ∃ body, answer = .ok body ∧
      ((req.client.transformResponse = .debugHook ∧ data = .str body) ∨
        (req.client.transformResponse = .libraryDefault ∧
          data = defaultTransformResponse P body)) := by
  have hrun : (exchange P req answer).run t =
      (runTransformRequest P req >>= fun _ =>
        runTransformResponse P req.client answer).run (t ++ [.http req]) := rfl
  rw [hrun, run_bind] at h
  rcases hreq : (runTransformRequest P req).run (t ++ [.http req]) with ⟨r, t1⟩
  rw [hreq] at h
  cases r with
  | error e => cases h
  | ok u =>
    simp only [runTransformResponse] at h
    cases answer with
    | error e =>
      simp only at h
      cases hts : req.client.transformResponse <;> cases hr : e.response <;>
        simp [hts, hr, transformResponseHook] at h
    | ok body =>
      refine ⟨body, rfl, ?_⟩
      simp only at h
      cases hts : req.client.transformResponse with
      | debugHook =>
        simp only [hts, transformResponseHook, run_bind, run_logMsg, run_pure,
          Except.ok.injEq] at h
        exact Or.inl ⟨rfl, h.symm⟩
      | libraryDefault =>
        simp only [hts, run_pure, Except.ok.injEq] at h
        exact Or.inr ⟨rfl, h.symm⟩

/-! ## The methods, stage by stage -/

/-- The run of `validateEnvironment`, in closed form, in terms of the run of its request. -/
theorem validateEnvironment_run (P : Platform) (W : World) (self : ReceiptProcessor)
    (t : Trace) :
    (validateEnvironment P W self).run t =
      match tablesVerdict ((httpRequest P W (tablesRequest self)).run
          (t ++ [.log .info [.lit "Validating environment..."]])).1 with
      | .ok true =>
          (.ok true, ((httpRequest P W (tablesRequest self)).run
              (t ++ [.log .info [.lit "Validating environment..."]])).2 ++
            [.log .info [.lit "Environment validation successful"]])
      | .ok false =>
          (.error (mkError ("Action table " ++ dq ++ "receipt" ++ dq ++
              " does not exist in your project")),
            ((httpRequest P W (tablesRequest self)).run
              (t ++ [.log .info [.lit "Validating environment..."]])).2 ++
              [.log .error [.lit ("Environment validation failed: " ++
                ("Action table " ++ dq ++ "receipt" ++ dq ++
                  " does not exist in your project"))]])
      | .error e =>
          (.error e, ((httpRequest P W (tablesRequest self)).run
              (t ++ [.log .info [.lit "Validating environment..."]])).2 ++
            [.log .error [.lit ("Environment validation failed: " ++ e.message)]]) := by
  simp only [validateEnvironment, run_tryCatch, run_bind, run_logStr, tablesVerdict,
    tablesRequest, run_liftJs]
  rcases hr : (httpRequest P W (.get self.client "/v1/tables" [("table_type", "action")])).run
      (t ++ [.log .info [.lit "Validating environment..."]]) with ⟨r, t1⟩
  cases r with
  | error e => simp [hr]
  | ok data =>
    cases h2 : getProp data "tables" with
    | error e => simp [hr, h2]
    | ok tables =>
      cases h3 : callSome tables with
      | error e => simp [hr, h2, h3]
      | ok b => cases b <;> simp [hr, h2, h3, mkError]

/-- The run of `validateImage`, in closed form. -/
theorem validateImage_run (P : Platform) (W : World) (imagePath : String) (t : Trace) :
    (validateImage P W imagePath).run t =
      if W.existsSync t imagePath = false then
        (.error (mkError ("Image not found: " ++ imagePath)),
          t ++ [.existsSync imagePath,
            .log .error [.lit ("Image validation failed: " ++
              ("Image not found: " ++ imagePath))]])
      else if P.toLowerCase (P.extname imagePath) ∉ validExtensions then
        (.error (mkError ("Unsupported file format. Use: " ++
            String.intercalate ", " validExtensions)),
          t ++ [.existsSync imagePath,
            .log .error [.lit ("Image validation failed: " ++
              ("Unsupported file format. Use: " ++
                String.intercalate ", " validExtensions))]])
      else
        (.ok true, t ++ [.existsSync imagePath,
          .log .debug [.lit ("Image validation passed for: " ++ imagePath)]]) := by
  simp only [validateImage, run_tryCatch, run_bind, run_fsExistsSync, run_ite, run_throw,
    run_pure, run_logStr]
  cases h1 : W.existsSync t imagePath with
  | false => simp [mkError]
  | true =>
    by_cases h2 : P.toLowerCase (P.extname imagePath) ∈ validExtensions
    · simp [h2]
    · simp [h2, mkError]

/-! ## C1: `validateImage` -/

/-- C1: `validateImage(path)` throws exactly when the path does not exist or its lower-cased
extension is not one of the five supported ones, returns `true` exactly when the path
exists and the lower-cased extension is supported, and sends no request in any case. -/
theorem c1_validateImage_contract (P : Platform) (W : World) (imagePath : String)
    (t : Trace) :
    ((∃ e, ((validateImage P W imagePath).run t).1 = .error e) ↔
      (W.existsSync t imagePath = false ∨
        P.toLowerCase (P.extname imagePath) ∉ validExtensions)) ∧
    (((validateImage P W imagePath).run t).1 = .ok true ↔
      (W.existsSync t imagePath = true ∧
        P.toLowerCase (P.extname imagePath) ∈ validExtensions)) ∧
    requests ((validateImage P W imagePath).run t).2 = requests t := by
  rw [validateImage_run]
  cases h1 : W.existsSync t imagePath with
  | false => simp [requests_append, requests]
  | true =>
    by_cases h2 : P.toLowerCase (P.extname imagePath) ∈ validExtensions
    · simp [h2, requests_append, requests]
    · simp [h2, requests_append, requests]

/-- Two runs of `validateImage` on Node's POSIX paths: an upper-case extension passes, a
text file is refused. -/
theorem validateImage_examples :
    ((validateImage nodePosix shopWorld "scans/Receipt.JPG").run []).1 = .ok true ∧
    ((validateImage nodePosix shopWorld "scans/notes.txt").run []).1 =
      .error (mkError "Unsupported file format. Use: .jpg, .jpeg, .png, .webp, .gif") :=
  ⟨rfl, rfl⟩


/-! ## `processReceipt`: stages and result -/

theorem validateEnvironment_ok (P : Platform) (W : World) (self : ReceiptProcessor)
    (t t1 : Trace) (b : Bool) (h : (validateEnvironment P W self).run t = (.ok b, t1)) :
    b = true := by
  rw [validateEnvironment_run] at h
  split at h <;> simp_all

theorem validateImage_ok (P : Platform) (W : World) (imagePath : String) (t t1 : Trace)
    (b : Bool) (h : (validateImage P W imagePath).run t = (.ok b, t1)) : b = true := by
  rw [validateImage_run] at h
  split at h
  · simp_all
  · split at h <;> simp_all

theorem processReceiptTry_ok_iff (P : Platform) (W : World) (self : ReceiptProcessor)
    (imagePath : String) (t : Trace) (res : ExtractionResult) :
    ((processReceiptTry P W self imagePath).run t).1 = .ok res ↔
      StagesSucceed P W self imagePath t res := by
  simp only [processReceiptTry, run_bind, run_logStr, run_liftJs, run_pure,
    StagesSucceed, rowsRequest]
  rcases h1 : (validateEnvironment P W self).run t with ⟨r1, t1⟩
  cases r1 with
  | error e => simp
  | ok b1 =>
    have hb1 := validateEnvironment_ok P W self t t1 b1 h1
    subst hb1
    rcases h2 : (validateImage P W imagePath).run t1 with ⟨r2, t2⟩
    cases r2 with
    | error e =>
      simp only [Prod.mk.injEq, true_and, exists_and_left, exists_eq_left', h2]
      simp
    | ok b2 =>
      have hb2 := validateImage_ok P W imagePath t1 t2 b2 h2
      subst hb2
      rcases h3 : (uploadFile P W self imagePath).run
        (t2 ++ [.log .info [.lit ("Processing receipt: " ++ P.basename imagePath)]])
        with ⟨r3, t3⟩
      cases r3 with
      | error e => simp [h2, h3]
      | ok fileResponse =>
        cases h4 : getProp fileResponse "uri" with
        | error e => simp [h2, h3, h4]
        | ok uri =>
          rcases h5 : (httpRequest P W (.postJson self.client "/v1/tables/rows"
              (rowsBody uri))).run
            (t3 ++ [.log .debug [.lit "Extracting receipt information..."]]) with ⟨r5, t4⟩
          cases r5 with
          | error e =>
            constructor
            · intro h
              simp [h2, h3, h4, h5] at h
            · rintro ⟨_, _, _, _, _, _, _, e1, e2, e3, e4, e5, _⟩
              cases e1
              rw [h2] at e2
              cases e2
              rw [h3] at e3
              cases e3
              rw [h4] at e4
              cases e4
              rw [h5] at e5
              cases e5
          | ok data =>
            cases h6 : readResult data with
            | error e =>
              constructor
              · intro h
                simp [h2, h3, h4, h5, h6] at h
              · rintro ⟨_, _, _, _, _, _, _, e1, e2, e3, e4, e5, e6⟩
                cases e1
                rw [h2] at e2
                cases e2
                rw [h3] at e3
                cases e3
                rw [h4] at e4
                cases e4
                rw [h5] at e5
                cases e5
                rw [h6] at e6
                cases e6
            | ok res' =>
              constructor
              · intro h
                simp only [h2, h3, h4, h5, h6, Except.ok.injEq] at h
                subst h
                exact ⟨t1, t2, t3, t4, fileResponse, uri, data, rfl, h2, h3, h4, h5, h6⟩
              · rintro ⟨_, _, _, _, _, _, _, e1, e2, e3, e4, e5, e6⟩
                cases e1
                rw [h2] at e2
                cases e2
                rw [h3] at e3
                cases e3
                rw [h4] at e4
                cases e4
                rw [h5] at e5
                cases e5
                rw [h6] at e6
                cases e6
                simp only [h2, h3, h4, h5, h6]

/-- The run of `processReceipt` in terms of its `try` block: never a thrown error. -/
theorem processReceipt_run_fst (P : Platform) (W : World) (self : ReceiptProcessor)
    (imagePath : String) (t : Trace) :
    ((processReceipt P W self imagePath).run t).1 =
      match ((processReceiptTry P W self imagePath).run t).1 with
      | .ok res => .ok (some res)
      | .error _ => .ok none := by
  simp only [processReceipt, run_tryCatch, run_bind, run_pure, run_logStr]
  rcases (processReceiptTry P W self imagePath).run t with ⟨r, t'⟩
  cases r <;> rfl

/-- The method `processReceipt` never throws. -/
theorem processReceipt_total (P : Platform) (W : World) (self : ReceiptProcessor)
    (imagePath : String) (t : Trace) :
    ∃ r t', (processReceipt P W self imagePath).run t = (.ok r, t') := by
  have h := processReceipt_run_fst P W self imagePath t
  rcases hrun : (processReceipt P W self imagePath).run t with ⟨r, t'⟩
  rw [hrun] at h
  simp only at h
  subst h
  split
  · exact ⟨_, _, rfl⟩
  · exact ⟨_, _, rfl⟩

/-- The record read from a response whose first row has a columns map: each field is the
column text, or the sentinel. -/
theorem readResult_of_columns (data : JsVal) (columns : List (String × JsVal))
    (h : firstRowColumns data = .ok (.obj columns)) :
    readResult data =
      .ok { shop_name := columnText columns "Shop Name"
            total := columnText columns "Total" } := by
  have hfield : ∀ name : String,
      orElse (optChain ((lookupField name columns).getD .undefined) "text") (.str "N/A") =
        columnText columns name := by
    intro name
    unfold columnText
    cases hcol : lookupField name columns with
    | none => rfl
    | some column =>
      cases column with
      | obj fields =>
        simp only [Option.getD_some, optChain]
        cases lookupField "text" fields with
        | none => rfl
        | some text => simp [orElse]
      | _ => rfl
  unfold firstRowColumns at h
  unfold readResult
  cases h1 : getProp data "rows" with
  | error e => simp [h1] at h
  | ok rows =>
    cases h2 : getIndex0 rows with
    | error e => simp [h1, h2] at h
    | ok row =>
      simp only [h1, h2] at h
      simp only [h1, h2, h]
      simp only [getProp, hfield]

/-- A field of a record made by `columnText` is never falsy. -/
theorem columnText_truthy (columns : List (String × JsVal)) (name : String) :
    truthy (columnText columns name) = true := by
  unfold columnText
  split
  · split
    · split
      · assumption
      · rfl
    · rfl
  · rfl


/-- When every stage succeeds and the response has a first row with a columns map,
`processReceipt` returns the record of the two column texts. -/
theorem processReceipt_record_of_stages (P : Platform) (W : World) (self : ReceiptProcessor)
    (imagePath : String) (t : Trace) (res : ExtractionResult)
    (hstages : StagesSucceed P W self imagePath t res) :
    ((processReceipt P W self imagePath).run t).1 = .ok (some res) := by
  rw [processReceipt_run_fst, (processReceiptTry_ok_iff P W self imagePath t res).mpr hstages]

/-! ## The hooks of the constructed client -/

/-- When the callback loop of `some` finds a hit, some element is a `receipt` table. -/
theorem someReceipt_true (items : List JsVal) (h : someReceipt items = .ok true) :
    items.any isReceiptTable = true := by
  induction items with
  | nil => simp [someReceipt] at h
  | cons table rest ih =>
    simp only [someReceipt] at h
    simp only [List.any_cons, Bool.or_eq_true]
    cases table with
    | obj fields =>
      simp only [getProp] at h
      by_cases hid : strictEqStr ((lookupField "table_id" fields).getD .undefined) "receipt" = true
      · left
        simp only [isReceiptTable]
        cases hl : lookupField "table_id" fields with
        | none => simp [hl, strictEqStr] at hid
        | some v =>
          cases v <;> simp_all [strictEqStr]
      · right
        simp only [hid] at h
        exact ih h
    | undefined => simp [getProp] at h
    | null => simp [getProp] at h
    | bool b =>
      right
      simp only [getProp, strictEqStr] at h
      exact ih (by simpa using h)
    | num bits =>
      right
      simp only [getProp, strictEqStr] at h
      exact ih (by simpa using h)
    | str s =>
      right
      simp only [getProp, strictEqStr] at h
      exact ih (by simpa using h)
    | arr xs =>
      right
      simp only [getProp, strictEqStr] at h
      exact ih (by simpa using h)

/-- A positive verdict of `validateEnvironment` needs a response that lists a `receipt`
table. -/
theorem tablesVerdict_true (answer : Except JsErr JsVal) (h : tablesVerdict answer = .ok true) :
    ∃ data, answer = .ok data ∧ hasReceiptTable data = true := by
  cases answer with
  | error e => simp [tablesVerdict] at h
  | ok data =>
    refine ⟨data, rfl, ?_⟩
    simp only [tablesVerdict] at h
    cases data with
    | obj fields =>
      simp only [getProp] at h
      simp only [hasReceiptTable]
      cases hl : lookupField "tables" fields with
      | none => simp [hl, callSome] at h
      | some tables =>
        simp only [hl, Option.getD_some] at h
        cases tables with
        | arr items => exact someReceipt_true items h
        | _ => simp [callSome] at h
    | _ => simp [getProp, callSome] at h

/-- The constructor puts the two hooks on the JSON client. -/
theorem constructor_hooks (cfg : Config) (self : ReceiptProcessor)
    (hcfg : ReceiptProcessor.constructor cfg = .ok self) :
    self.client.transformRequest = .debugHook ∧ self.client.transformResponse = .debugHook := by
  unfold ReceiptProcessor.constructor at hcfg
  split at hcfg
  · cases hcfg
  · cases hcfg
    exact ⟨rfl, rfl⟩

/-- Through a client with the `transformResponse` hook of the source, `validateEnvironment`
always throws: `response.data` is text, its `tables` is `undefined`. -/
theorem validateEnvironment_hooked (P : Platform) (W : World) (self : ReceiptProcessor)
    (t : Trace) (hhook : self.client.transformResponse = .debugHook) :
    ∃ e, (validateEnvironment P W self).run t =
      (.error e, ((httpRequest P W (tablesRequest self)).run
          (t ++ [.log .info [.lit "Validating environment..."]])).2 ++
        [.log .error [.lit ("Environment validation failed: " ++ e.message)]]) := by
  rw [validateEnvironment_run]
  cases hv : tablesVerdict ((httpRequest P W (tablesRequest self)).run
      (t ++ [.log .info [.lit "Validating environment..."]])).1 with
  | error e => exact ⟨e, rfl⟩
  | ok b =>
    cases b with
    | false => exact ⟨_, rfl⟩
    | true =>
      obtain ⟨data, hdata, hhas⟩ := tablesVerdict_true _ hv
      obtain ⟨body, _, hcase⟩ := exchange_ok P (tablesRequest self) _ _ data hdata
      rcases hcase with ⟨_, hstr⟩ | ⟨hdef, _⟩
      · rw [hstr] at hhas
        cases hhas
      · have hclient : (tablesRequest self).client = self.client := rfl
        rw [hclient, hhook] at hdef
        cases hdef

/-- Through the client the constructor builds, `processReceipt` always returns `null`. -/
theorem processReceipt_hooked (P : Platform) (W : World) (self : ReceiptProcessor)
    (imagePath : String) (t : Trace) (hhook : self.client.transformResponse = .debugHook) :
    ((processReceipt P W self imagePath).run t).1 = .ok none := by
  obtain ⟨e, henv⟩ := validateEnvironment_hooked P W self t hhook
  simp only [processReceipt, processReceiptTry, run_tryCatch, run_bind, henv, run_logStr,
    run_pure]

/-! ## C2: the record of a successful round trip -/

/-- C2 at the failing input: the backend answers the table listing with status 200 and the
body that lists the `receipt` table, and would accept the upload and extract `Acme`,
`12.50`.  The processor built by the constructor reads `response.data` as text, so
`validateEnvironment` throws a `TypeError` and `processReceipt` returns `null` instead of
the record.  With the two hooks taken off the same client, the same backend yields the
record of the claim. -/
theorem c2_failing_input :
    ReceiptProcessor.constructor demoConfig = .ok demoProcessor ∧
    shopWorld.http [] (tablesRequest demoProcessor) = .ok (tablesBody "receipt") ∧
    (nodePosix.jsonParse (tablesBody "receipt")).map hasReceiptTable = some true ∧
    ((validateEnvironment nodePosix shopWorld demoProcessor).run []).1 =
      .error (mkError "Cannot read properties of undefined (reading some)") ∧
    ((processReceipt nodePosix shopWorld demoProcessor "receipts/a.jpg").run []).1 =
      .ok none ∧
    ((processReceipt nodePosix shopWorld plainProcessor "receipts/a.jpg").run []).1 =
      .ok (some { shop_name := .str "Acme", total := .str "12.50" }) :=
  ⟨rfl, rfl, rfl, rfl, rfl, rfl⟩

/-! ## C3: `processReceipt` never throws -/

/-- C3: `processReceipt` never throws; it returns a record exactly when every stage
succeeded (environment validation, image validation, upload, row creation, reading the
response) and `null` exactly when some stage failed; in particular an empty `rows` list
and a first row without `columns` make the reading stage fail. -/
theorem c3_processReceipt_never_throws (P : Platform) (W : World) (self : ReceiptProcessor)
    (imagePath : String) (t : Trace) :
    (∃ r, ((processReceipt P W self imagePath).run t).1 = .ok r) ∧
    (∀ res, ((processReceipt P W self imagePath).run t).1 = .ok (some res) ↔
      StagesSucceed P W self imagePath t res) ∧
    (((processReceipt P W self imagePath).run t).1 = .ok none ↔
      ¬ ∃ res, StagesSucceed P W self imagePath t res) ∧
    (∀ fields, lookupField "rows" fields = some (.arr []) →
      ∃ e, readResult (.obj fields) = .error e) ∧
    (∀ fields rowFields rest,
      lookupField "rows" fields = some (.arr (.obj rowFields :: rest)) →
      lookupField "columns" rowFields = none →
      ∃ e, readResult (.obj fields) = .error e) := by
  have hrun := processReceipt_run_fst P W self imagePath t
  have hiff := processReceiptTry_ok_iff P W self imagePath t
  refine ⟨?_, ?_, ?_, ?_, ?_⟩
  · rw [hrun]
    split
    · exact ⟨_, rfl⟩
    · exact ⟨_, rfl⟩
  · intro res
    rw [hrun, ← hiff]
    cases ((processReceiptTry P W self imagePath).run t).1 with
    | error e => simp
    | ok r => simp
  · rw [hrun]
    cases hres : ((processReceiptTry P W self imagePath).run t).1 with
    | error e =>
      simp only [true_iff]
      rintro ⟨res, hstages⟩
      rw [← hiff, hres] at hstages
      cases hstages
    | ok r =>
      constructor
      · intro h
        cases h
      · intro h
        exact absurd ⟨r, (hiff r).mp hres⟩ h
  · intro fields h
    simp [readResult, getProp, getIndex0, h]
  · intro fields rowFields rest h1 h2
    simp [readResult, getProp, getIndex0, h1, h2]

/-- The example backend: the upload of `receipts/c.png` is never reached, no run of the
stages succeeds, and the result is `null`. -/
theorem c3_processReceipt_never_throws_witness :
    ((processReceipt nodePosix shopWorld demoProcessor "receipts/c.png").run []).1 =
      .ok none ∧
    ¬ ∃ res, StagesSucceed nodePosix shopWorld demoProcessor "receipts/c.png" [] res :=
  ⟨rfl,
    (c3_processReceipt_never_throws nodePosix shopWorld demoProcessor "receipts/c.png"
      []).2.2.1.mp rfl⟩

/-! ## C4: the batch result -/

/-- The loop of the batch appends to `results` exactly the entries of `batchSpec`, and does
not throw. -/
theorem batchLoop_run_fst (P : Platform) (W : World) (self : ReceiptProcessor)
    (folderPath : String) (files : List String) :
    ∀ (results : List BatchEntry) (t : Trace),
      ((batchLoop P W self folderPath files results).run t).1 =
        .ok (results ++ batchSpec P W self folderPath files t) := by
  induction files with
  | nil => intro results t; simp [batchLoop, batchSpec]
  | cons file rest ih =>
    intro results t
    simp only [batchLoop, batchSpec, isSupported, run_ite]
    by_cases hsup : validExtensions.contains (P.toLowerCase (P.extname file)) = true
    · simp only [hsup, if_true, run_bind]
      obtain ⟨r, t', hrun⟩ := processReceipt_total P W self (P.join folderPath file) t
      rw [hrun]
      cases r with
      | none => simp only [ih]
      | some res => simp only [ih, List.append_assoc, List.singleton_append]
    · rw [if_neg hsup, if_neg hsup]
      exact ih results t

/-- The file names of the batch result are the images that individually succeeded. -/
theorem batchSpec_filenames (P : Platform) (W : World) (self : ReceiptProcessor)
    (folderPath : String) (files : List String) :
    ∀ t : Trace, (batchSpec P W self folderPath files t).map (fun entry => entry.filename) =
      succeededFiles P W self folderPath files t := by
  induction files with
  | nil => intro t; rfl
  | cons file rest ih =>
    intro t
    simp only [batchSpec, succeededFiles]
    by_cases hsup : isSupported P file = true
    · simp only [hsup, if_true]
      obtain ⟨r, t', hrun⟩ := processReceipt_total P W self (P.join folderPath file) t
      rw [hrun]
      cases r with
      | none => exact ih t'
      | some res => simp only [List.map_cons, ih]
    · simp only [hsup, if_false]
      exact ih t

/-- The images that succeeded form a subsequence of the supported entries of the listing. -/
theorem succeededFiles_sublist (P : Platform) (W : World) (self : ReceiptProcessor)
    (folderPath : String) (files : List String) :
    ∀ t : Trace, (succeededFiles P W self folderPath files t).Sublist
      (files.filter (isSupported P)) := by
  induction files with
  | nil => intro t; exact List.Sublist.slnil
  | cons file rest ih =>
    intro t
    simp only [succeededFiles]
    by_cases hsup : isSupported P file = true
    · simp only [hsup, if_true, List.filter_cons_of_pos]
      obtain ⟨r, t', hrun⟩ := processReceipt_total P W self (P.join folderPath file) t
      rw [hrun]
      cases r with
      | none => exact List.Sublist.cons _ (ih t')
      | some res => exact List.Sublist.cons₂ _ (ih t')
    · simp only [hsup, if_false]
      rw [List.filter_cons_of_neg hsup]
      exact ih t

/-- The run of the batch loop as a pair: the result of `batchSpec`, and some history. -/
theorem batchLoop_run (P : Platform) (W : World) (self : ReceiptProcessor)
    (folderPath : String) (files : List String) (results : List BatchEntry) (t : Trace) :
    (batchLoop P W self folderPath files results).run t =
      (.ok (results ++ batchSpec P W self folderPath files t),
        ((batchLoop P W self folderPath files results).run t).2) := by
  have h := batchLoop_run_fst P W self folderPath files results t
  rcases hrun : (batchLoop P W self folderPath files results).run t with ⟨r, t'⟩
  rw [hrun] at h
  simp only at h
  rw [h]

/-- When the batch-level environment validation and the directory listing succeed, the
result of `processReceiptBatch` is the list obtained by walking the listing in order and
keeping, with its file name, the record of each supported entry for which `processReceipt`
returned one; its file names form a subsequence of the listing. -/
theorem processReceiptBatch_result (P : Platform) (W : World) (self : ReceiptProcessor)
    (folderPath : String) (t t1 : Trace) (files : List String)
    (henv : (validateEnvironment P W self).run t = (.ok true, t1))
    (hls : W.readdirSync
        (t1 ++ [.log .info [.lit ("Starting batch processing for folder: " ++ folderPath)]])
        folderPath = .ok files) :
    ∃ results, ((processReceiptBatch P W self folderPath).run t).1 = .ok results ∧
      results = batchSpec P W self folderPath files
        (t1 ++ [.log .info [.lit ("Starting batch processing for folder: " ++ folderPath)],
          .readdirSync folderPath]) ∧
      results.map (fun entry => entry.filename) = succeededFiles P W self folderPath files
        (t1 ++ [.log .info [.lit ("Starting batch processing for folder: " ++ folderPath)],
          .readdirSync folderPath]) ∧
      (results.map (fun entry => entry.filename)).Sublist (files.filter (isSupported P)) ∧
      (results.map (fun entry => entry.filename)).Sublist files := by
  refine ⟨_, ?_, rfl, batchSpec_filenames P W self folderPath files _, ?_, ?_⟩
  · simp only [processReceiptBatch, run_tryCatch, run_bind, henv, run_logStr,
      run_fsReaddirSync, hls, run_logMsg, run_pure, List.append_assoc, List.singleton_append]
    rw [batchLoop_run]
    simp
  · rw [batchSpec_filenames]
    exact succeededFiles_sublist P W self folderPath files _
  · rw [batchSpec_filenames]
    exact (succeededFiles_sublist P W self folderPath files _).trans (List.filter_sublist _)

/-- Through the client the constructor builds, `processReceiptBatch` always returns the empty
list, after the table listing and without listing the directory. -/
theorem processReceiptBatch_hooked (P : Platform) (W : World) (self : ReceiptProcessor)
    (folderPath : String) (t : Trace) (hhook : self.client.transformResponse = .debugHook) :
    ∃ e : JsErr, (processReceiptBatch P W self folderPath).run t =
      (.ok [], ((httpRequest P W (tablesRequest self)).run
          (t ++ [.log .info [.lit "Validating environment..."]])).2 ++
        [.log .error [.lit ("Environment validation failed: " ++ e.message)],
          .log .error [.lit ("Batch processing failed: " ++ e.message)]]) := by
  obtain ⟨e, henv⟩ := validateEnvironment_hooked P W self t hhook
  refine ⟨e, ?_⟩
  simp only [processReceiptBatch, run_tryCatch, run_bind, henv, run_logStr, run_pure,
    List.append_assoc, List.singleton_append]

/-- C4 at the failing input: the folder of the specification's example (`a.jpg`, `b.txt`,
`c.png`) with a backend that lists the `receipt` table and extracts `Acme`, `12.50`.  The
processor built by the constructor fails the batch-level validation on the text of the
response and returns the empty list instead of the entry of `a.jpg`.  With the two hooks
taken off the same client, the same world yields the list of the claim. -/
theorem c4_failing_input :
    ReceiptProcessor.constructor demoConfig = .ok demoProcessor ∧
    shopWorld.readdirSync [] "receipts" = .ok ["a.jpg", "b.txt", "c.png"] ∧
    ((processReceiptBatch nodePosix shopWorld demoProcessor "receipts").run []).1 = .ok [] ∧
    ((processReceiptBatch nodePosix shopWorld plainProcessor "receipts").run []).1 =
      .ok [{ filename := "a.jpg", shop_name := .str "Acme", total := .str "12.50" }] :=
  ⟨rfl, rfl, rfl, rfl⟩

/-! ## C5: `processReceiptBatch` never throws -/

/-- C5: `processReceiptBatch` never throws; a failed batch-level environment validation or
a failed directory listing gives the empty list; and a file whose processing fails is
skipped while the loop goes on with the remaining files (the loop itself never throws). -/
theorem c5_processReceiptBatch_never_throws (P : Platform) (W : World)
    (self : ReceiptProcessor) (folderPath : String) (t : Trace) :
    (∃ results, ((processReceiptBatch P W self folderPath).run t).1 = .ok results) ∧
    (∀ e t1, (validateEnvironment P W self).run t = (.error e, t1) →
      ((processReceiptBatch P W self folderPath).run t).1 = .ok []) ∧
    (∀ t1 e, (validateEnvironment P W self).run t = (.ok true, t1) →
      W.readdirSync
        (t1 ++ [.log .info [.lit ("Starting batch processing for folder: " ++ folderPath)]])
        folderPath = .error e →
      ((processReceiptBatch P W self folderPath).run t).1 = .ok []) ∧
    (∀ file rest results t0 t', isSupported P file = true →
      (processReceipt P W self (P.join folderPath file)).run t0 = (.ok none, t') →
      (batchLoop P W self folderPath (file :: rest) results).run t0 =
        (batchLoop P W self folderPath rest results).run t') ∧
    (∀ files results t0,
      ∃ out, ((batchLoop P W self folderPath files results).run t0).1 = .ok out) := by
  refine ⟨?_, ?_, ?_, ?_, ?_⟩
  · simp only [processReceiptBatch, run_tryCatch, run_bind, run_logStr, run_fsReaddirSync,
      run_logMsg, run_pure]
    rcases (validateEnvironment P W self).run t with ⟨r1, t1⟩
    cases r1 with
    | error e => exact ⟨_, rfl⟩
    | ok b =>
      simp only []
      cases W.readdirSync
        (t1 ++ [.log .info [.lit ("Starting batch processing for folder: " ++ folderPath)]])
        folderPath with
      | error e => exact ⟨_, rfl⟩
      | ok files =>
        simp only []
        rw [batchLoop_run]
        exact ⟨_, rfl⟩
  · intro e t1 henv
    simp only [processReceiptBatch, run_tryCatch, run_bind, henv, run_logStr, run_pure]
  · intro t1 e henv hls
    simp only [processReceiptBatch, run_tryCatch, run_bind, henv, run_logStr,
      run_fsReaddirSync, hls, run_pure]
  · intro file rest results t0 t' hsup hrun
    simp only [isSupported] at hsup
    simp only [batchLoop, hsup, if_true, run_bind, hrun]
  · intro files results t0
    exact ⟨_, batchLoop_run_fst P W self folderPath files results t0⟩

/-- The example worlds: a failed environment validation gives the empty list, and the loop
goes on after the failure of `c.png`. -/
theorem c5_processReceiptBatch_never_throws_witness :
    ((processReceiptBatch nodePosix noTableWorld demoProcessor "receipts").run []).1 =
      .ok [] ∧
    (batchLoop nodePosix shopWorld demoProcessor "receipts" ["c.png", "a.jpg"] []).run [] =
      (batchLoop nodePosix shopWorld demoProcessor "receipts" ["a.jpg"] []).run
        ((processReceipt nodePosix shopWorld demoProcessor "receipts/c.png").run []).2 :=
  ⟨(c5_processReceiptBatch_never_throws nodePosix noTableWorld demoProcessor "receipts"
      []).2.1 _ _ rfl,
    (c5_processReceiptBatch_never_throws nodePosix shopWorld demoProcessor "receipts"
      []).2.2.2.1 "c.png" ["a.jpg"] [] [] _ rfl rfl⟩


/-! ## C6: a project without the `receipt` table -/

/-- What a call on a client adds to the history: the call itself, then log lines only. -/
theorem httpRequest_history (P : Platform) (W : World) (req : Request) (t : Trace) :
    requests ((httpRequest P W req).run t).2 = requests t ++ [req] ∧
    tableListings ((httpRequest P W req).run t).2 =
      tableListings t + (if isTablesRequest req then 1 else 0) ∧
    dirListings ((httpRequest P W req).run t).2 = dirListings t ∧
    (t ++ [.http req]) <+: ((httpRequest P W req).run t).2 :=
  exchange_history P req (W.http t req) t

/-- Without a `receipt` table in the listing, `validateEnvironment` throws after its
request. -/
theorem validateEnvironment_no_table (P : Platform) (W : World) (self : ReceiptProcessor)
    (t : Trace)
    (hno : ∀ body data, W.http (t ++ [.log .info [.lit "Validating environment..."]])
      (tablesRequest self) = .ok body → P.jsonParse body = some data →
      hasReceiptTable data = false) :
    ∃ e, (validateEnvironment P W self).run t =
      (.error e, ((httpRequest P W (tablesRequest self)).run
          (t ++ [.log .info [.lit "Validating environment..."]])).2 ++
        [.log .error [.lit ("Environment validation failed: " ++ e.message)]]) := by
  rw [validateEnvironment_run]
  cases hv : tablesVerdict ((httpRequest P W (tablesRequest self)).run
      (t ++ [.log .info [.lit "Validating environment..."]])).1 with
  | error e => exact ⟨e, rfl⟩
  | ok b =>
    cases b with
    | false => exact ⟨_, rfl⟩
    | true =>
      obtain ⟨data, hdata, hhas⟩ := tablesVerdict_true _ hv
      obtain ⟨body, hbody, hcase⟩ := exchange_ok P (tablesRequest self) _ _ data hdata
      rcases hcase with ⟨_, hstr⟩ | ⟨_, hdef⟩
      · rw [hstr] at hhas
        cases hhas
      · unfold defaultTransformResponse at hdef
        cases hparse : P.jsonParse body with
        | none =>
          rw [hparse] at hdef
          rw [hdef] at hhas
          cases hhas
        | some v =>
          rw [hparse] at hdef
          rw [hdef, hno body v hbody hparse] at hhas
          cases hhas

/-- C6: when the table-listing response contains no table whose `table_id` is exactly
`receipt`, `validateEnvironment` fails, `processReceipt` returns `null`,
`processReceiptBatch` returns the empty list, and in both flows the table listing is the
only request sent (no upload, no row creation). -/
theorem c6_no_receipt_table (P : Platform) (W : World) (self : ReceiptProcessor)
    (imagePath folderPath : String) (t : Trace)
    (hno : ∀ body data, W.http (t ++ [.log .info [.lit "Validating environment..."]])
      (tablesRequest self) = .ok body → P.jsonParse body = some data →
      hasReceiptTable data = false) :
    (∃ e, ((validateEnvironment P W self).run t).1 = .error e) ∧
    ((processReceipt P W self imagePath).run t).1 = .ok none ∧
    requests ((processReceipt P W self imagePath).run t).2 =
      requests t ++ [tablesRequest self] ∧
    ((processReceiptBatch P W self folderPath).run t).1 = .ok [] ∧
    requests ((processReceiptBatch P W self folderPath).run t).2 =
      requests t ++ [tablesRequest self] := by
  obtain ⟨e, henv⟩ := validateEnvironment_no_table P W self t hno
  have hreq := (httpRequest_history P W (tablesRequest self)
    (t ++ [.log .info [.lit "Validating environment..."]])).1
  refine ⟨⟨e, by rw [henv]⟩, ?_, ?_, ?_, ?_⟩
  · simp only [processReceipt, processReceiptTry, run_tryCatch, run_bind, henv, run_logStr,
      run_pure]
  · simp only [processReceipt, processReceiptTry, run_tryCatch, run_bind, henv, run_logStr,
      run_pure]
    simp [requests_append, requests, hreq]
  · simp only [processReceiptBatch, run_tryCatch, run_bind, henv, run_logStr, run_pure]
  · simp only [processReceiptBatch, run_tryCatch, run_bind, henv, run_logStr, run_pure]
    simp [requests_append, requests, hreq]

/-- The example project without the `receipt` table: `null`, the empty list, one request. -/
theorem c6_no_receipt_table_witness :
    ((processReceipt nodePosix noTableWorld demoProcessor "receipts/a.jpg").run []).1 =
      .ok none ∧
    requests ((processReceipt nodePosix noTableWorld demoProcessor "receipts/a.jpg").run []).2 =
      [tablesRequest demoProcessor] ∧
    ((processReceiptBatch nodePosix noTableWorld demoProcessor "receipts").run []).1 = .ok [] ∧
    requests ((processReceiptBatch nodePosix noTableWorld demoProcessor "receipts").run []).2 =
      [tablesRequest demoProcessor] :=
  (c6_no_receipt_table nodePosix noTableWorld demoProcessor "receipts/a.jpg" "receipts" []
    (fun _ _ hbody hparse => by cases hbody; cases hparse; rfl)).2

/-! ## C8: table listings of one batch -/

/-- C8: one call of `processReceiptBatch` on the processor the constructor builds runs
`validateEnvironment` once: whatever the folder holds, the history gains exactly one
table-listing request, sent first, and the directory is not listed before it (nor after
it, as that validation throws). -/
theorem c8_one_table_listing (P : Platform) (W : World) (cfg : Config)
    (self : ReceiptProcessor) (folderPath : String) (t : Trace)
    (hcfg : ReceiptProcessor.constructor cfg = .ok self) :
    tableListings ((processReceiptBatch P W self folderPath).run t).2 =
      tableListings t + 1 ∧
    dirListings ((processReceiptBatch P W self folderPath).run t).2 = dirListings t ∧
    (t ++ [.log .info [.lit "Validating environment..."], .http (tablesRequest self)]) <+:
      ((processReceiptBatch P W self folderPath).run t).2 := by
  obtain ⟨e, hrun⟩ := processReceiptBatch_hooked P W self folderPath t
    (constructor_hooks cfg self hcfg).2
  have hhist := httpRequest_history P W (tablesRequest self)
    (t ++ [.log .info [.lit "Validating environment..."]])
  have hreq : isTablesRequest (tablesRequest self) = true := by
    simp [isTablesRequest, tablesRequest]
  rw [hrun]
  refine ⟨?_, ?_, ?_⟩
  · simp [tableListings_append, tableListings, hhist.2.1, hreq]
  · simp [dirListings_append, dirListings, hhist.2.2.1]
  · have hpre := prefix_append_of hhist.2.2.2
      [.log .error [.lit ("Environment validation failed: " ++ e.message)],
        .log .error [.lit ("Batch processing failed: " ++ e.message)]]
    simpa using hpre

/-- The example folder with three entries, two of them images: one table listing. -/
theorem c8_one_table_listing_witness :
    tableListings ((processReceiptBatch nodePosix shopWorld demoProcessor "receipts").run
      []).2 = 0 + 1 :=
  (c8_one_table_listing nodePosix shopWorld demoConfig demoProcessor "receipts" [] rfl).1

/-! ## C9: the batch summary of the entry point -/

/-- The callback loop of `forEach` prints the summary blocks and cannot throw. -/
theorem printResults_run (results : List BatchEntry) :
    ∀ (index : Nat) (t : Trace),
      (printResults results index).run t = (.ok (), t ++ summaryBlocks results index) := by
  induction results with
  | nil => intro index t; simp [printResults, summaryBlocks]
  | cons result rest ih =>
    intro index t
    simp only [printResults, run_bind, run_logMsg, run_logStr, ih, summaryBlocks,
      List.append_assoc, List.singleton_append, List.cons_append, List.nil_append]

/-- C9 (amended): with both credentials set and a directory argument whose listing by the
entry point succeeds, the entry point prints the two header lines, one summary block per
element of the batch result in result order, then the count line `N of M` with `N` the
length of the batch result and `M` the number of entries of the directory listing, and
returns. -/
theorem c9_directory_summary (P : Platform) (W : World) (cfg : Config)
    (self : ReceiptProcessor) (inputPath : String) (t t1 : Trace)
    (results : List BatchEntry) (entries : List String)
    (hcfg : ReceiptProcessor.constructor cfg = .ok self)
    (harg : inputPath ≠ "")
    (hstat : W.statSync t inputPath = .ok .directory)
    (hbatch : (processReceiptBatch P W self inputPath).run (t ++ [.statSync inputPath]) =
      (.ok results, t1))
    (hls : W.readdirSync
        (t1 ++ [.log .info [.lit "\nBATCH PROCESSING SUMMARY:"],
            .log .info [.lit "========================================"]] ++
          summaryBlocks results 0)
        inputPath = .ok entries) :
    main P W cfg (some inputPath) t =
      (.returned,
        t1 ++ [.log .info [.lit "\nBATCH PROCESSING SUMMARY:"],
            .log .info [.lit "========================================"]] ++
          summaryBlocks results 0 ++
          [.readdirSync inputPath, countLine results.length entries.length,
            .log .info [.lit "========================================"]]) := by
  have harg' : envFalsy (some inputPath) = false := by
    simp [envFalsy, harg]
  simp only [main, harg', Bool.false_eq_true, if_false, envText, mainTry, run_bind,
    run_liftJs, hcfg, run_fsStatSync, hstat, hbatch, run_logStr, printResults_run,
    List.append_assoc, List.singleton_append, List.cons_append, List.nil_append] at hls ⊢
  simp only [run_fsReaddirSync, hls, run_logMsg, run_logStr, countLine, List.append_assoc,
    List.singleton_append, List.cons_append, List.nil_append]

/-- The example folder with three entries: the batch result is empty, the count line reads
`0 of 3`. -/
theorem c9_directory_summary_witness :
    ∃ t1, main nodePosix shopWorld demoConfig (some "receipts") [] =
      (.returned,
        t1 ++ [.log .info [.lit "\nBATCH PROCESSING SUMMARY:"],
            .log .info [.lit "========================================"]] ++
          summaryBlocks [] 0 ++
          [.readdirSync "receipts", countLine 0 3,
            .log .info [.lit "========================================"]]) :=
  ⟨_, c9_directory_summary nodePosix shopWorld demoConfig demoProcessor "receipts" [] _
    [] ["a.jpg", "b.txt", "c.png"] rfl (by decide) rfl rfl rfl⟩

/-- C9 (as stated) fails: for a directory that cannot be listed, the batch returns the empty
list, the entry point prints the two header lines, its own `readdirSync` throws, and the
run ends with an application error and status 1; no count line is printed. -/
theorem c9_counterexample :
    main nodePosix unreadableWorld demoConfig (some "receipts") [] =
      (.exited 1,
        [.statSync "receipts",
          .log .info [.lit "Validating environment..."],
          .http (tablesRequest demoProcessor),
          .log .debug [.lit "Making request to:", .lit "https://api.jamaibase.com/v1"],
          .log .debug [.lit "Request data:", .val .undefined],
          .log .debug [.lit "Received response:", .val (.str (tablesBody "receipt"))],
          .log .error [.lit ("Environment validation failed: " ++
            "Cannot read properties of undefined (reading some)")],
          .log .error [.lit ("Batch processing failed: " ++
            "Cannot read properties of undefined (reading some)")],
          .log .info [.lit "\nBATCH PROCESSING SUMMARY:"],
          .log .info [.lit "========================================"],
          .readdirSync "receipts",
          .log .error
            [.lit "Application error: EACCES: permission denied, scandir receipts"],
          .exit 1]) :=
  rfl

/-! ## C10: missing credentials -/

/-- C10: when `PROJECT_ID` or `PAT` is unset or empty, the constructor throws its
descriptive error and the entry point exits with status 1 after events that are only log
lines and the exit itself (no `stat`, no directory listing, no request); when both are
set, the constructor succeeds. -/
theorem c10_missing_credentials (P : Platform) (W : World) (cfg : Config)
    (argv2 : Option String) (t : Trace) :
    (envFalsy cfg.PROJECT_ID = true ∨ envFalsy cfg.PAT = true →
      ReceiptProcessor.constructor cfg =
          .error (mkError
            "Missing required environment variables: PROJECT_ID and PAT must be set") ∧
        (main P W cfg argv2 t).1 = .exited 1 ∧
        ∃ events, (main P W cfg argv2 t).2 = t ++ events ∧
          ∀ e ∈ events, touchesOutside e = false) ∧
    (envFalsy cfg.PROJECT_ID = false ∧ envFalsy cfg.PAT = false →
      ∃ self, ReceiptProcessor.constructor cfg = .ok self) := by
  constructor
  · intro hmissing
    have hcons : ReceiptProcessor.constructor cfg =
        .error (mkError
          "Missing required environment variables: PROJECT_ID and PAT must be set") := by
      have hor : (envFalsy cfg.PROJECT_ID || envFalsy cfg.PAT) = true := by
        simpa [Bool.or_eq_true] using hmissing
      simp only [ReceiptProcessor.constructor, hor, if_true]
    refine ⟨hcons, ?_⟩
    unfold main
    by_cases harg : envFalsy argv2 = true
    · rw [if_pos harg]
      exact ⟨rfl, _, rfl, by simp [touchesOutside]⟩
    · rw [if_neg harg]
      simp only [mainTry, run_bind, run_liftJs, hcons, true_and]
      exact ⟨_, rfl, by simp [touchesOutside]⟩
  · rintro ⟨h1, h2⟩
    simp [ReceiptProcessor.constructor, h1, h2]

/-- An empty process environment: the run exits with status 1 after two events, the error
line and the exit. -/
theorem c10_missing_credentials_witness :
    (main nodePosix shopWorld (config fun _ => none) (some "receipts") []).1 = .exited 1 ∧
    ∃ events, (main nodePosix shopWorld (config fun _ => none) (some "receipts") []).2 =
        [] ++ events ∧
      ∀ e ∈ events, touchesOutside e = false :=
  ((c10_missing_credentials nodePosix shopWorld (config fun _ => none) (some "receipts")
    []).1 (Or.inl rfl)).2

/-! ## C7: what becomes of an environment failure -/

/-- C7 (amended): an environment failure is caught at the item and batch boundary:
`processReceipt` returns `null`, `processReceiptBatch` returns the empty list, and the
entry point does not take its uncaught-error path because of it: in the single-file flow
it logs `Failed to process receipt` and returns; in the directory flow it prints the
summary with zero successes and returns, provided its own directory listing succeeds. -/
theorem c7_environment_failure_absorbed (P : Platform) (W : World) (cfg : Config)
    (self : ReceiptProcessor) (inputPath : String) (t : Trace)
    (hcfg : ReceiptProcessor.constructor cfg = .ok self)
    (harg : inputPath ≠ "")
    (hno : ∀ body data, W.http
        (t ++ [.statSync inputPath] ++ [.log .info [.lit "Validating environment..."]])
        (tablesRequest self) = .ok body → P.jsonParse body = some data →
        hasReceiptTable data = false) :
    ((processReceipt P W self inputPath).run (t ++ [.statSync inputPath])).1 = .ok none ∧
    ((processReceiptBatch P W self inputPath).run (t ++ [.statSync inputPath])).1 = .ok [] ∧
    (W.statSync t inputPath = .ok .file →
      ∃ t', main P W cfg (some inputPath) t =
        (.returned, t' ++ [.log .error [.lit "Failed to process receipt"]])) ∧
    (∀ entries, W.statSync t inputPath = .ok .directory →
      W.readdirSync
        (((processReceiptBatch P W self inputPath).run (t ++ [.statSync inputPath])).2 ++
          [.log .info [.lit "\nBATCH PROCESSING SUMMARY:"],
            .log .info [.lit "========================================"]])
        inputPath = .ok entries →
      ∃ t', main P W cfg (some inputPath) t =
        (.returned, t' ++ [.readdirSync inputPath, countLine 0 entries.length,
          .log .info [.lit "========================================"]])) := by
  obtain ⟨e, henv⟩ := validateEnvironment_no_table P W self (t ++ [.statSync inputPath]) hno
  have harg' : envFalsy (some inputPath) = false := by
    simp [envFalsy, harg]
  have hone : ∃ t', (processReceipt P W self inputPath).run (t ++ [.statSync inputPath]) =
      (.ok none, t') := by
    simp only [processReceipt, processReceiptTry, run_tryCatch, run_bind, henv, run_logStr,
      run_pure]
    exact ⟨_, rfl⟩
  have hall : ∃ t', (processReceiptBatch P W self inputPath).run
      (t ++ [.statSync inputPath]) = (.ok [], t') := by
    simp only [processReceiptBatch, run_tryCatch, run_bind, henv, run_logStr, run_pure]
    exact ⟨_, rfl⟩
  obtain ⟨tone, hone⟩ := hone
  obtain ⟨tall, hall⟩ := hall
  refine ⟨by rw [hone], by rw [hall], ?_, ?_⟩
  · intro hstat
    simp only [main, harg', Bool.false_eq_true, if_false, envText, mainTry, run_bind,
      run_liftJs, hcfg, run_fsStatSync, hstat, hone, run_logStr]
    exact ⟨_, rfl⟩
  · intro entries hstat hls
    rw [hall] at hls
    simp only [List.append_assoc, List.singleton_append, List.cons_append,
      List.nil_append] at hls
    simp only [main, harg', Bool.false_eq_true, if_false, envText, mainTry, run_bind,
      run_liftJs, hcfg, run_fsStatSync, hstat, hall, run_logStr, printResults_run,
      summaryBlocks, List.append_nil, List.append_assoc, List.singleton_append,
      List.cons_append, List.nil_append, run_fsReaddirSync, hls, run_logMsg, countLine,
      List.length_nil]
    exact ⟨tall ++ [.log .info [.lit "\nBATCH PROCESSING SUMMARY:"],
      .log .info [.lit "========================================"]], by simp⟩

/-- The example project without the `receipt` table, single-file flow: `main` returns after
logging the failure. -/
theorem c7_environment_failure_absorbed_witness :
    ∃ t', main nodePosix noTableWorld demoConfig (some "a.jpg") [] =
      (.returned, t' ++ [.log .error [.lit "Failed to process receipt"]]) :=
  (c7_environment_failure_absorbed nodePosix noTableWorld demoConfig demoProcessor "a.jpg" []
    rfl (by decide) (fun _ _ hbody hparse => by cases hbody; cases hparse; rfl)).2.2.1 rfl

/-- C7 (as stated) fails: in the example project without the `receipt` table the
environment validation throws, yet `processReceipt` returns `null`, `processReceiptBatch`
returns the empty list, and `main` returns in both flows instead of exiting with status 1. -/
theorem c7_counterexample :
    (∃ e, ((validateEnvironment nodePosix noTableWorld demoProcessor).run [.statSync "a.jpg"]).1 =
      .error e) ∧
    ((processReceipt nodePosix noTableWorld demoProcessor "a.jpg").run
      [.statSync "a.jpg"]).1 = .ok none ∧
    (main nodePosix noTableWorld demoConfig (some "a.jpg") []).1 = .returned ∧
    ((processReceiptBatch nodePosix noTableWorld demoProcessor "receipts").run
      [.statSync "receipts"]).1 = .ok [] ∧
    (main nodePosix noTableWorld demoConfig (some "receipts") []).1 = .returned :=
  ⟨⟨_, rfl⟩, rfl, rfl, rfl, rfl⟩

end Receipt
